import Mathlib

/-!
Verification development for the EV thesis ingestion & standardization module
(`src/ingestion_standardization.py`).

The Python module is shallowly embedded: DataFrames become a `Frame` of named
columns over lists of `Cell`s, pure helpers become Lean functions, and code
that raises becomes `Except`.  All string manipulation is implemented over
`List Char` so that every definition evaluates inside the kernel.
Inputs in this repository are ASCII, so the ASCII `Char.toUpper`/`Char.toLower`
faithfully model Python's `str.upper()`/`str.lower()` on the data in scope.
-/

-- Batteries seals rational arithmetic behind `@[irreducible]`; re-opening it
-- locally lets `decide` evaluate the embedded pipeline on concrete inputs.
attribute [local semireducible] Rat.add Rat.mul Rat.inv Rat.sub
  Rat.ofScientific

instance {ε α : Type} [DecidableEq ε] [DecidableEq α] :
    DecidableEq (Except ε α) := fun a b =>
  match a, b with
  | .ok x, .ok y =>
    if h : x = y then .isTrue (by rw [h]) else .isFalse (by simp [h])
  | .ok _, .error _ => .isFalse (by simp)
  | .error _, .ok _ => .isFalse (by simp)
  | .error x, .error y =>
    if h : x = y then .isTrue (by rw [h]) else .isFalse (by simp [h])

namespace EvIngest

/-! ## Character and string utilities (models of Python `str` methods) -/

def isWs (c : Char) : Bool := c = ' ' ∨ c = '\t' ∨ c = '\n' ∨ c = '\r'

/-- Python `str.strip()` : drop whitespace from both ends. -/
def trimL (cs : List Char) : List Char :=
  ((cs.dropWhile isWs).reverse.dropWhile isWs).reverse

/-- Python `str.strip(chars)` for a given char set. -/
def stripChars (bad : List Char) (cs : List Char) : List Char :=
  ((cs.dropWhile (· ∈ bad)).reverse.dropWhile (· ∈ bad)).reverse

def upperL (cs : List Char) : List Char := cs.map Char.toUpper

def lowerL (cs : List Char) : List Char := cs.map Char.toLower

def strUpper (s : String) : String := ⟨upperL s.data⟩

def strLower (s : String) : String := ⟨lowerL s.data⟩

def strTrim (s : String) : String := ⟨trimL s.data⟩

/-- Does `cs` start with `pat`? -/
def startsWithL : List Char → List Char → Bool
  | [], _ => true
  | _ :: _, [] => false
  | p :: ps, c :: cs => p = c && startsWithL ps cs

/-- Does `pat` occur as a contiguous substring of `cs`?
Models Python's `pat in s`. -/
def containsL (pat : List Char) : List Char → Bool
  | [] => startsWithL pat []
  | c :: cs => startsWithL pat (c :: cs) || containsL pat cs

/-- Python `pat in s` on `String`s. -/
def strContainsSub (s pat : String) : Bool := containsL pat.data s.data

/-- Python `str.split()` (split on whitespace runs, no empty fields). -/
def splitWsAux : List Char → List Char → List (List Char)
  | [], acc => if acc = [] then [] else [acc.reverse]
  | c :: cs, acc =>
    if isWs c then
      if acc = [] then splitWsAux cs [] else acc.reverse :: splitWsAux cs []
    else splitWsAux cs (c :: acc)

def splitWs (cs : List Char) : List (List Char) := splitWsAux cs []

/-- Python `str.split(sep)` for a single-character separator
(empty fields preserved). -/
def splitOnCharAux (sep : Char) : List Char → List Char → List (List Char)
  | [], acc => [acc.reverse]
  | c :: cs, acc =>
    if c = sep then acc.reverse :: splitOnCharAux sep cs []
    else splitOnCharAux sep cs (c :: acc)

def splitOnChar (sep : Char) (cs : List Char) : List (List Char) :=
  splitOnCharAux sep cs []

def isDigitCh (c : Char) : Bool := 48 ≤ c.toNat ∧ c.toNat ≤ 57

def digitsToNat (cs : List Char) : Nat :=
  cs.foldl (fun a c => a * 10 + (c.toNat - 48)) 0

/-- Python `str.isdigit()` restricted to ASCII: nonempty and all digits. -/
def isDigitTok (cs : List Char) : Bool := cs ≠ [] && cs.all isDigitCh

/-! ## Rationals from text (model of `float(...)` / `pd.to_numeric`) -/

/-- Parse a decimal literal (optional sign, optional fractional part) as a
rational; `none` when the text is not a plain decimal number.  Exponent forms
are not exercised by this repository's data and are not modelled. -/
def parseDec? (s : String) : Option ℚ :=
  let cs := trimL s.data
  let (neg, body) :=
    match cs with
    | '-' :: rest => (true, rest)
    | '+' :: rest => (false, rest)
    | _ => (false, cs)
  match splitOnChar '.' body with
  | [a] =>
    if isDigitTok a then
      let v : ℚ := (digitsToNat a : ℚ)
      some (if neg then -v else v)
    else none
  | [a, b] =>
    if (a ≠ [] ∨ b ≠ []) && a.all isDigitCh && b.all isDigitCh then
      let v : ℚ := (digitsToNat a : ℚ) + (digitsToNat b : ℚ) / ((10 : ℚ) ^ b.length)
      some (if neg then -v else v)
    else none
  | _ => none

/-- Python `int(x)` on a float: truncation toward zero. -/
def pyInt (q : ℚ) : ℤ :=
  if 0 ≤ q.num then ((q.num.toNat / q.den : ℕ) : ℤ)
  else -(((-q.num).toNat / q.den : ℕ) : ℤ)

/-! ## Calendar dates and cells -/

/-- A calendar date (model of `pd.Timestamp` at day granularity). -/
structure Date where
  year : ℕ
  month : ℕ
  day : ℕ
deriving DecidableEq, Repr

/-- One DataFrame cell. -/
inductive Cell where
  | str (s : String)
  | num (q : ℚ)
  | date (d : Date)
  | null
deriving DecidableEq, Repr

/-- A DataFrame: named columns over rows of cells (row-major). -/
structure Frame where
  cols : List String
  rows : List (List Cell)
deriving DecidableEq, Repr

/-- Position of a named column (first occurrence, as pandas column lookup). -/
def colIdx (cols : List String) (c : String) : Option ℕ :=
  cols.findIdx? (· = c)

/-- Cell of `row` under column `c` (null when absent). -/
def getCell (cols : List String) (row : List Cell) (c : String) : Cell :=
  match colIdx cols c with
  | some i => (row.get? i).getD Cell.null
  | none => Cell.null

/-! ## Constants from the source module -/

/-- `STATE_ABBR`: the fixed enumeration of 50 states + DC + PR. -/
def STATE_ABBR : List String :=
  ["AL", "AK", "AZ", "AR", "CA", "CO", "CT", "DE", "FL", "GA", "HI", "ID",
   "IL", "IN", "IA", "KS", "KY", "LA", "ME", "MD", "MA", "MI", "MN", "MS",
   "MO", "MT", "NE", "NV", "NH", "NJ", "NM", "NY", "NC", "ND", "OH", "OK",
   "OR", "PA", "RI", "SC", "SD", "TN", "TX", "UT", "VT", "VA", "WA", "WV",
   "WI", "WY", "DC", "PR"]

/-- `STATE_NAME_TO_ABBR`: full state name → two-letter code. -/
def STATE_NAME_TO_ABBR : List (String × String) :=
  [("Alabama", "AL"), ("Alaska", "AK"), ("Arizona", "AZ"), ("Arkansas", "AR"),
   ("California", "CA"), ("Colorado", "CO"), ("Connecticut", "CT"),
   ("Delaware", "DE"), ("Florida", "FL"), ("Georgia", "GA"), ("Hawaii", "HI"),
   ("Idaho", "ID"), ("Illinois", "IL"), ("Indiana", "IN"), ("Iowa", "IA"),
   ("Kansas", "KS"), ("Kentucky", "KY"), ("Louisiana", "LA"), ("Maine", "ME"),
   ("Maryland", "MD"), ("Massachusetts", "MA"), ("Michigan", "MI"),
   ("Minnesota", "MN"), ("Mississippi", "MS"), ("Missouri", "MO"),
   ("Montana", "MT"), ("Nebraska", "NE"), ("Nevada", "NV"),
   ("New Hampshire", "NH"), ("New Jersey", "NJ"), ("New Mexico", "NM"),
   ("New York", "NY"), ("North Carolina", "NC"), ("North Dakota", "ND"),
   ("Ohio", "OH"), ("Oklahoma", "OK"), ("Oregon", "OR"),
   ("Pennsylvania", "PA"), ("Rhode Island", "RI"), ("South Carolina", "SC"),
   ("South Dakota", "SD"), ("Tennessee", "TN"), ("Texas", "TX"),
   ("Utah", "UT"), ("Vermont", "VT"), ("Virginia", "VA"),
   ("Washington", "WA"), ("West Virginia", "WV"), ("Wisconsin", "WI"),
   ("Wyoming", "WY"), ("District of Columbia", "DC"), ("Puerto Rico", "PR")]

/-- `DEFAULT_STATE_POP`: static state population table (2023 ACS estimates),
modelled as an association list state code → population. -/
def DEFAULT_STATE_POP : List (String × ℚ) :=
  [("AL", 5074296), ("AK", 733406), ("AZ", 7359197), ("AR", 3045637),
   ("CA", 38965193), ("CO", 5893634), ("CT", 3626205), ("DE", 1035009),
   ("FL", 22391017), ("GA", 11029004), ("HI", 1440195), ("ID", 1964727),
   ("IL", 12582032), ("IN", 6882403), ("IA", 3200517), ("KS", 2937150),
   ("KY", 4512310), ("LA", 4600186), ("ME", 1385340), ("MD", 6185277),
   ("MA", 7055253), ("MI", 10056478), ("MN", 5717184), ("MS", 2940054),
   ("MO", 6169038), ("MT", 1122867), ("NE", 1960790), ("NV", 3177772),
   ("NH", 1379617), ("NJ", 9387343), ("NM", 2120220), ("NY", 19491339),
   ("NC", 10600823), ("ND", 812615), ("OH", 11712533), ("OK", 4019800),
   ("OR", 4237256), ("PA", 12821920), ("RI", 1093994), ("SC", 5328210),
   ("SD", 919324), ("TN", 7067904), ("TX", 30390355), ("UT", 3430800),
   ("VT", 647464), ("VA", 8734853), ("WA", 7797095), ("WV", 1755715),
   ("WI", 5892539), ("WY", 581381), ("DC", 671803), ("PR", 3263587)]

/-! ## `strptime` model and `_safe_month_parse`

`_safe_month_parse` tries an explicit ordered list of `strptime` formats and
falls back to the general pandas parser.  A format is a token list; matching
follows CPython `_strptime`: the directive regex is matched greedily with
backtracking over the whole string (leftover text fails the format), then the
captured values are range-validated; a validation failure fails the format.
-/

inductive FTok where
  | lit (c : Char)
  | yearFull   -- %Y : 1-4 digits
  | yearTwo    -- %y : 1-2 digits, 0-68 → 2000s, 69-99 → 1900s
  | monthNum   -- %m : 1-2 digits
  | monthName  -- %b : abbreviated month name, case-insensitive
deriving DecidableEq, Repr

def monthAbbrs : List (String × ℕ) :=
  [("jan", 1), ("feb", 2), ("mar", 3), ("apr", 4), ("may", 5), ("jun", 6),
   ("jul", 7), ("aug", 8), ("sep", 9), ("oct", 10), ("nov", 11), ("dec", 12)]

/-- Take exactly `k` leading digit characters. -/
def takeDigits (k : ℕ) (cs : List Char) : Option (ℕ × List Char) :=
  let pre := cs.take k
  if pre.length = k ∧ pre.all isDigitCh then some (digitsToNat pre, cs.drop k)
  else none

/-- Structural match of a format against the characters: first full match in
greedy backtracking order, returning the captured (year, month) values. -/
def matchToks : List FTok → List Char → Option ℕ → Option ℕ → Option (ℕ × ℕ)
  | [], [], some y, some mo => some (y, mo)
  | [], _, _, _ => none
  | .lit c :: ts, c' :: cs, y, mo =>
    if c = c' then matchToks ts cs y mo else none
  | .lit _ :: _, [], _, _ => none
  | .yearFull :: ts, cs, _, mo =>
    (takeDigits 4 cs >>= fun p => matchToks ts p.2 (some p.1) mo) <|>
    (takeDigits 3 cs >>= fun p => matchToks ts p.2 (some p.1) mo) <|>
    (takeDigits 2 cs >>= fun p => matchToks ts p.2 (some p.1) mo) <|>
    (takeDigits 1 cs >>= fun p => matchToks ts p.2 (some p.1) mo)
  | .yearTwo :: ts, cs, _, mo =>
    (takeDigits 2 cs >>= fun p =>
      matchToks ts p.2 (some (if p.1 ≤ 68 then 2000 + p.1 else 1900 + p.1)) mo) <|>
    (takeDigits 1 cs >>= fun p =>
      matchToks ts p.2 (some (if p.1 ≤ 68 then 2000 + p.1 else 1900 + p.1)) mo)
  | .monthNum :: ts, cs, y, _ =>
    (takeDigits 2 cs >>= fun p => matchToks ts p.2 y (some p.1)) <|>
    (takeDigits 1 cs >>= fun p => matchToks ts p.2 y (some p.1))
  | .monthName :: ts, cs, y, _ =>
    (monthAbbrs.findSome? fun (ab, v) =>
      if startsWithL ab.data (lowerL cs) then matchToks ts (cs.drop 3) y (some v)
      else none)

/-- `datetime.strptime(s, fmt)` for a year+month format: structural match then
range validation (month 1-12, year 1-9999). -/
def strptimeYM (fmt : List FTok) (cs : List Char) : Option (ℕ × ℕ) :=
  match matchToks fmt cs none none with
  | some (y, mo) =>
    if 1 ≤ mo ∧ mo ≤ 12 ∧ 1 ≤ y ∧ y ≤ 9999 then some (y, mo) else none
  | none => none

/-- The ordered format list of `_safe_month_parse`:
`%Y-%m`, `%b-%Y`, `%b %Y`, `%Y %m`, `%m/%Y`, `%Y%m`, `%Y %b`, `%b-%y`,
`%Y-M%m`, `%Y M%m`. -/
def monthFormats : List (List FTok) :=
  [[.yearFull, .lit '-', .monthNum],
   [.monthName, .lit '-', .yearFull],
   [.monthName, .lit ' ', .yearFull],
   [.yearFull, .lit ' ', .monthNum],
   [.monthNum, .lit '/', .yearFull],
   [.yearFull, .monthNum],
   [.yearFull, .lit ' ', .monthName],
   [.monthName, .lit '-', .yearTwo],
   [.yearFull, .lit '-', .lit 'M', .monthNum],
   [.yearFull, .lit ' ', .lit 'M', .monthNum]]

/-- Approximation of the pandas general datetime parser
(`pd.to_datetime(s, errors="raise")`) restricted to the layouts exercised by
this repository: ISO `YYYY-MM-DD` / `YYYY-MM`, and `<month name> <day> <year>`
with an abbreviated or full month name.  Year-less and two-digit-year forms
(which pandas resolves against the current clock) are out of scope and parse
as `none`. -/
def pdToDatetime (s : String) : Option Date :=
  let cs := trimL s.data
  let iso : Option Date :=
    match splitOnChar '-' cs with
    | [a, b] =>
      if isDigitTok a && a.length = 4 && isDigitTok b && b.length ≤ 2 &&
          decide (1 ≤ digitsToNat b) && decide (digitsToNat b ≤ 12) then
        some ⟨digitsToNat a, digitsToNat b, 1⟩
      else none
    | [a, b, c] =>
      if isDigitTok a && a.length = 4 && isDigitTok b && b.length ≤ 2 &&
          isDigitTok c && c.length ≤ 2 &&
          decide (1 ≤ digitsToNat b) && decide (digitsToNat b ≤ 12) &&
          decide (1 ≤ digitsToNat c) && decide (digitsToNat c ≤ 31) then
        some ⟨digitsToNat a, digitsToNat b, digitsToNat c⟩
      else none
    | _ => none
  match iso with
  | some d => some d
  | none =>
    match splitWs cs with
    | [b, d, y] =>
      (monthAbbrs.findSome? fun (p : String × ℕ) =>
        if startsWithL p.1.data (lowerL b) &&
            (b.length = 3 ∨ b.length ≥ 4) && (lowerL b).all Char.isAlpha &&
            isDigitTok d && d.length ≤ 2 && isDigitTok y && y.length = 4 &&
            decide (1 ≤ digitsToNat d) && decide (digitsToNat d ≤ 31) then
          some (⟨digitsToNat y, p.2, digitsToNat d⟩ : Date)
        else none)
    | _ => none

/-- `_safe_month_parse`: try the explicit formats in order, then fall back to
the general parser, truncating to the first day of the month; `none` on total
failure, never an exception. -/
def safe_month_parse (s : String) : Option Date :=
  let cs := (strTrim s).data
  match monthFormats.findSome? (fun fmt => strptimeYM fmt cs) with
  | some (y, mo) => some ⟨y, mo, 1⟩
  | none => (pdToDatetime ⟨cs⟩).map fun d => ⟨d.year, d.month, 1⟩

/-! ## `_infer_snapshot_date_from_name` -/

/-- `re.search(r"\(([^)]+)\)", name)`: content of the first parenthesized
group with at least one non-`)` character before a closing `)`. -/
def parenSearch : List Char → Option (List Char)
  | [] => none
  | '(' :: rest =>
    let content := rest.takeWhile (· ≠ ')')
    if content ≠ [] ∧ content.length < rest.length then some content
    else parenSearch rest
  | _ :: rest => parenSearch rest

/-- Tokenization used by the fallback tiers: replace `_` by a space, split on
whitespace, strip `(`, `)` and spaces from each token. -/
def nameTokens (name : String) : List (List Char) :=
  (splitWs (name.data.map fun c => if c = '_' then ' ' else c)).map
    (stripChars ['(', ')', ' '])

/-- Join tokens with single spaces (the `" ".join` of a 3-token window). -/
def joinSpace : List (List Char) → List Char
  | [] => []
  | [t] => t
  | t :: ts => t ++ ' ' :: joinSpace ts

/-- All 3-token windows, in order (`range(len(tokens) - 2)`). -/
def windows3 (toks : List (List Char)) : List (List Char) :=
  (List.range (toks.length - 2)).map fun i => joinSpace ((toks.drop i).take 3)

/-- Is the token a bare 4-digit year (`t.isdigit() and len(t) == 4`)? -/
def isYearTok (t : List Char) : Bool := isDigitTok t && t.length = 4

/-- Tier 1: parenthesized content, parsed by the general parser. -/
def parenDate (name : String) : Option Date :=
  (parenSearch name.data).bind fun content => pdToDatetime ⟨content⟩

/-- Tier 2: first 3-token window that parses as a date. -/
def windowDate (name : String) : Option Date :=
  (windows3 (nameTokens name)).findSome? fun w => pdToDatetime ⟨w⟩

/-- The `pd.Timestamp(year, month, day)` constructor: component validation
as in CPython `datetime` (year 1-9999, month 1-12, day 1-31), raising
`ValueError` otherwise — in particular `Timestamp(0, 10, 7)` raises on
every pandas version.  (pandas < 2 would additionally reject years outside
the nanosecond range 1677-2262; the model follows pandas ≥ 2, whose
`Timestamp` accepts exactly the `datetime` range.) -/
def pdTimestampYMD (y m d : ℕ) : Except String Date :=
  if 1 ≤ y ∧ y ≤ 9999 ∧ 1 ≤ m ∧ m ≤ 12 ∧ 1 ≤ d ∧ d ≤ 31 then .ok ⟨y, m, d⟩
  else .error "ValueError: date value out of range"

/-- Tier 3: first bare 4-digit year token, fed to the UNGUARDED
`pd.Timestamp(int(t), 10, 7)` call (line 356 has no try block, so a token
like `0000` makes the whole function raise). -/
def yearTokDate (name : String) : Option (Except String Date) :=
  ((nameTokens name).find? isYearTok).map fun t =>
    pdTimestampYMD (digitsToNat t) 10 7

/-- `_infer_snapshot_date_from_name`: parenthesized date, else 3-token
windows, else the bare 4-digit year placeholder (whose constructor can
raise, uncaught), else `none`. -/
def infer_snapshot_date_from_name (name : String) :
    Except String (Option Date) :=
  match parenDate name with
  | some d => .ok (some d)
  | none =>
    match windowDate name with
    | some d => .ok (some d)
    | none =>
      match yearTokDate name with
      | some (.ok d) => .ok (some d)
      | some (.error e) => .error e
      | none => .ok none

/-! ## `_parse_nhtsa_date` and `_find_column` -/

/-- `_parse_nhtsa_date`: `re.match(r"(\d{2})[A-Z]", str(id))` → January 1 of
`2000 + yy`.  Only string cells can match the digit-digit-letter shape; null
is `None` under the `pd.isna` guard. -/
def parse_nhtsa_date (cell : Cell) : Option Date :=
  match cell with
  | .str s =>
    match s.data with
    | c1 :: c2 :: c3 :: _ =>
      if isDigitCh c1 && isDigitCh c2 && ('A' ≤ c3 && c3 ≤ 'Z') then
        some ⟨2000 + digitsToNat [c1, c2], 1, 1⟩
      else none
    | _ => none
  | _ => none

/-- The name-level content of `_find_column`: the first candidate that is
exactly (`col in df.columns`) among the headers. -/
def findColumnName (cols : List String) (candidates : List String) :
    Option String :=
  candidates.find? (· ∈ cols)

/-- `_find_column`: first matching column from the candidates list, returning
that column's cells down the rows. -/
def find_column (df : Frame) (candidates : List String) :
    Option (List Cell) :=
  (findColumnName df.cols candidates).map fun c =>
    df.rows.map fun r => getCell df.cols r c

/-! ## `standardize_afdc`

The function is embedded in two layers: `afdcAggregate` produces the merged
per-(state, snapshot date) aggregate `grp` (with ports, DC-fast ports,
population, `ports_per_100k` and `dcfast_share`), and `standardize_afdc`
projects the two output tables from it.  Exceptions become `Except.error`.
-/

/-- One row of the aggregated/merged `grp` frame. -/
structure AfdcGrp where
  state : String
  date : Option Date
  ports : ℤ
  dcFast : ℤ
  population : Option ℚ
  ppk : Option ℚ
  share : Option ℚ
deriving DecidableEq, Repr

/-- A row of the `ports_per_100k` output table. -/
structure PortsRow where
  state : String
  date : Option Date
  ports_per_100k : Option ℚ
deriving DecidableEq, Repr

/-- A row of the `dcfast_share` output table. -/
structure ShareRow where
  state : String
  date : Option Date
  dcfast_share : Option ℚ
deriving DecidableEq, Repr

/-- `pd.to_numeric(x, errors="coerce").fillna(0)` on one cell. -/
def toNumericFill (cell : Cell) : ℚ :=
  match cell with
  | .num q => q
  | .str s => (parseDec? s).getD 0
  | _ => 0

/-- Count `;`-delimited non-empty trimmed tokens of a connector-list cell
(`fillna("")` first; `str()` of a non-null scalar is nonempty and has no
semicolon, hence one token). -/
def connectorCount (cell : Cell) : ℕ :=
  match cell with
  | .null => 0
  | .str s => ((splitOnChar ';' s.data).filter fun t => trimL t ≠ []).length
  | _ => 1

/-- `pd.to_datetime(cell, errors="coerce").dt.date` on one snapshot cell.
String cells go through the general parser; anything unparseable is `NaT`. -/
def toDateCoerce (cell : Cell) : Option Date :=
  match cell with
  | .date d => some d
  | .str s => pdToDatetime s
  | _ => none

/-- Strict lexicographic order on character lists by code point
(kernel-computable model of Python string comparison). -/
def charsLt : List Char → List Char → Bool
  | _, [] => false
  | [], _ :: _ => true
  | c :: cs, d :: ds => c.toNat < d.toNat || (c.toNat = d.toNat && charsLt cs ds)

def strLtB (s1 s2 : String) : Bool := charsLt s1.data s2.data

def strLeB (s1 s2 : String) : Bool := strLtB s1 s2 || s1 = s2

/-- Lexicographic order on dates. -/
def dateLtB (d1 d2 : Date) : Bool :=
  d1.year < d2.year ∨ (d1.year = d2.year ∧
    (d1.month < d2.month ∨ (d1.month = d2.month ∧ d1.day < d2.day)))

def dateLeB (d1 d2 : Date) : Bool := dateLtB d1 d2 || d1 = d2

/-- Keys `(state, snapshot_date)` are sorted by pandas `groupby`
(missing dates last, as `NaT`). -/
def afdcKeyLe (k1 k2 : String × Option Date) : Bool :=
  match k1, k2 with
  | (s1, some d1), (s2, some d2) =>
    strLtB s1 s2 || (s1 = s2 && dateLeB d1 d2)
  | (s1, some _), (s2, none) => strLeB s1 s2
  | (s1, none), (s2, some _) => strLtB s1 s2
  | (s1, none), (s2, none) => strLeB s1 s2

/-- Duplicate-free list keeping first occurrences. -/
def firstDedupAux {α : Type} [DecidableEq α] : List α → List α → List α
  | [], _ => []
  | k :: ks, seen =>
    if k ∈ seen then firstDedupAux ks seen
    else k :: firstDedupAux ks (k :: seen)

def firstDedup {α : Type} [DecidableEq α] (l : List α) : List α :=
  firstDedupAux l []

/-- The state-filtered rows with their group key and per-row measures:
`(state, snapshot_date, ports, dc_fast_ports)`.  A row survives exactly when
its state cell is a string in `STATE_ABBR` (`isin` filter). -/
def afdcKeyed (df : Frame) (stateCol : String) : List (String × Option Date × ℤ × ℤ) :=
  -- Filter to ELEC stations first when the discriminator column exists.
  let rows :=
    if "Fuel Type Code" ∈ df.cols then
      df.rows.filter fun r => getCell df.cols r "Fuel Type Code" = .str "ELEC"
    else df.rows
  -- Port-count columns are resolved after the state filter/rename; renaming
  -- the state column does not affect these lookups.
  let dcFastCol := findColumnName df.cols
    ["EV DC Fast Count", "EV Fast Count", "EVDC_FastCount"]
  let lvl2Col := findColumnName df.cols
    ["EV Level2 EVSE Num", "EV Level 2 EVSE Num", "EV_Level2_EVSENum"]
  let lvl1Col := findColumnName df.cols
    ["EV Level1 EVSE Num", "EV Level 1 EVSE Num", "EV_Level1_EVSENum"]
  let connCol := (df.cols.filter fun c => strContainsSub (strLower c) "connector").head?
  let portsOf : List Cell → ℤ := fun r =>
    if dcFastCol.isSome ∨ lvl2Col.isSome ∨ lvl1Col.isSome then
      pyInt (([dcFastCol, lvl2Col, lvl1Col].map fun oc =>
        match oc with
        | some c => toNumericFill (getCell df.cols r c)
        | none => 0).sum)
    else
      match connCol with
      | some c => (connectorCount (getCell df.cols r c) : ℤ)
      | none => 1
  let dcOf : List Cell → ℤ := fun r =>
    match dcFastCol with
    | some c => pyInt (toNumericFill (getCell df.cols r c))
    | none => 0
  rows.filterMap fun r =>
    match getCell df.cols r stateCol with
    | .str s =>
      if s ∈ STATE_ABBR then
        some (s, toDateCoerce (getCell df.cols r "snapshot_date"), portsOf r, dcOf r)
      else none
    | _ => none

/-- Build one merged `grp` row from a group aggregate and one population
match (`none` when the state is absent from the population table). -/
def mkGrp (s : String) (d : Option Date) (ports dcFast : ℤ)
    (pop : Option ℚ) : AfdcGrp :=
  { state := s, date := d, ports := ports, dcFast := dcFast,
    population := pop,
    ppk := pop.map fun p => (ports : ℚ) / p * 100000,
    share := if 0 < ports then some ((dcFast : ℚ) / (ports : ℚ)) else none }

/-- The resolved state column:
`_first_nonnull([c for c in df.columns if c in ("State","STATE","state")], "State")`. -/
def afdcStateCol (df : Frame) : String :=
  ((df.cols.filter (· ∈ (["State", "STATE", "state"] : List String))).head?).getD "State"

/-- The merged `grp` rows: aggregate the keyed rows by `(state, snapshot
date)` with sorted group keys, left-merge the population table, and compute
the two derived measures. -/
def afdcGroups (df : Frame) (statePop : List (String × ℚ)) : List AfdcGrp :=
  let keyed := afdcKeyed df (afdcStateCol df)
  let keys := List.insertionSort (fun k1 k2 => afdcKeyLe k1 k2 = true)
    (firstDedup (keyed.map fun k => (k.1, k.2.1)))
  keys.flatMap fun key =>
    let members := keyed.filter fun k => (k.1, k.2.1) = key
    let ports := (members.map fun k => k.2.2.1).sum
    let dcFast := (members.map fun k => k.2.2.2).sum
    match statePop.filter (fun p => p.1 = key.1) with
    | [] => [mkGrp key.1 key.2 ports dcFast none]
    | ms => ms.map fun p => mkGrp key.1 key.2 ports dcFast (some p.2)

/-- Aggregate by `(state, snapshot_date)`, left-merge the population table,
and compute the two derived measures; exceptions become `.error`. -/
def afdcAggregate (df : Frame) (statePop : List (String × ℚ)) :
    Except String (List AfdcGrp) :=
  if df.rows = [] then .ok []
  else if afdcStateCol df ∉ df.cols then
    .error "AFDC: could not find 'State' column"
  else if "snapshot_date" ∉ df.cols then
    -- `pd.to_datetime(df.get("snapshot_date"), ...)` receives a scalar
    -- `None` and the `.dt` accessor raises on the resulting `NaT`.
    .error "AFDC: snapshot_date column absent ('.dt' accessor on scalar NaT)"
  else .ok (afdcGroups df statePop)

/-- `standardize_afdc`: empty input yields two empty tables; a missing state
column raises; otherwise project `(state, date, measure)` from `grp`. -/
def standardize_afdc (df : Frame) (statePop : List (String × ℚ)) :
    Except String (List PortsRow × List ShareRow) :=
  (afdcAggregate df statePop).map fun grp =>
    (grp.map fun g => ⟨g.state, g.date, g.ppk⟩,
     grp.map fun g => ⟨g.state, g.date, g.share⟩)

/-! ## EIA price / sales ingestion and standardization

The workbook, as read with the two-row header block, is modelled as the
leftmost location column, the tuple-headed `(sector, month-label)` columns,
and the grid of cells.  `ingest_eia_price` and `ingest_eia_sales` share this
body verbatim in the source (only the value column's name differs).
-/

/-- The sheet as produced by `pd.read_excel(..., header=[2, 3])`. -/
structure EiaSheet where
  locations : List Cell
  colHeads : List (String × String)
  cells : List (List Cell)
deriving DecidableEq, Repr

/-- One tidy output row `(state, month, value)`. -/
structure EiaRow where
  state : String
  month : Date
  value : ℚ
deriving DecidableEq, Repr

/-- `df["location"].map(STATE_NAME_TO_ABBR)` on one cell: only string cells
can hit a key of the mapping; misses become `NaN`. -/
def mapStateName (cell : Cell) : Option String :=
  match cell with
  | .str s => (STATE_NAME_TO_ABBR.find? fun p => p.1 = s).map fun p => p.2
  | _ => none

/-- `float(value)` on one retained cell (`pd.notna` guard first): numbers
pass through, numeric strings parse, everything else raises and the cell is
skipped. -/
def floatOfCell (cell : Cell) : Option ℚ :=
  match cell with
  | .num q => some q
  | .str s => parseDec? s
  | _ => none

/-- Shared body of `ingest_eia_price` / `ingest_eia_sales`: keep rows whose
location resolves to a state code, keep tuple columns whose sector contains
"residential" (case-insensitive), parse the inner header as a month and the
cell as a number, and emit one tidy row per surviving triple. -/
def eiaResCols (sheet : EiaSheet) : List ℕ :=
  (List.range sheet.colHeads.length).filter fun i =>
    match sheet.colHeads.get? i with
    | some h => strContainsSub (strLower h.1) "residential"
    | none => false

def eiaTidy (sheet : EiaSheet) : List EiaRow :=
  if eiaResCols sheet = [] then []
  else
    (sheet.locations.zip sheet.cells).flatMap fun (loc, rowCells) =>
      match mapStateName loc with
      | none => []
      | some st =>
        (eiaResCols sheet).filterMap fun i =>
          match sheet.colHeads.get? i with
          | none => none
          | some h =>
            match safe_month_parse h.2, (rowCells.get? i).getD Cell.null with
            | some m, v =>
              if v ≠ Cell.null then
                (floatOfCell v).map fun q => ⟨st, m, q⟩
              else none
            | none, _ => none

/-- `ingest_eia_price` (value column `cents_per_kWh`). -/
def ingest_eia_price (sheet : EiaSheet) : List EiaRow := eiaTidy sheet

/-- `ingest_eia_sales` (value column `MWh`). -/
def ingest_eia_sales (sheet : EiaSheet) : List EiaRow := eiaTidy sheet

/-- Row order used by `sort_values(["state", "month"])`. -/
def eiaRowLe (r1 r2 : EiaRow) : Prop :=
  (strLtB r1.state r2.state ||
    (r1.state = r2.state && dateLeB r1.month r2.month)) = true

instance : DecidableRel eiaRowLe := fun r1 r2 =>
  inferInstanceAs (Decidable ((strLtB r1.state r2.state ||
    (r1.state = r2.state && dateLeB r1.month r2.month)) = true))

/-- `standardize_eia`: copy both tables and sort each by state then month
(stable sort; pandas `sort_values`).  The inputs produced by the two ingest
functions never carry a `customers` column, so the sales-per-customer branch
is vacuous for pipeline data and the tables pass through otherwise
unchanged. -/
def standardize_eia (price sales : List EiaRow) :
    List EiaRow × List EiaRow :=
  (List.insertionSort eiaRowLe price, List.insertionSort eiaRowLe sales)

/-- The residential price table that `run_all` writes, as a function of the
two ingested tidy tables (lines 853-871 of the source): `standardize_eia`
runs only when BOTH tables are non-empty; the price table is then written
whenever it is non-empty. -/
def run_all_price_written (price sales : List EiaRow) : List EiaRow :=
  if price ≠ [] ∧ sales ≠ [] then (standardize_eia price sales).1
  else price

/-! ## `standardize_recalls` -/

/-- Header normalization applied in place to the input frame:
`df.columns = df.columns.str.upper().str.strip()`. -/
def normHeader (c : String) : String := strTrim (strUpper c)

/-- The caller's frame after `standardize_recalls` returns: the empty-input
early return precedes the header assignment, so only non-empty inputs have
their column headers rewritten (the row data is never touched). -/
def standardize_recalls_inputAfter (df : Frame) : Frame :=
  if df.rows = [] then df else { df with cols := df.cols.map normHeader }

/-- The caller's frame after `standardize_afdc` returns: every write in the
source lands on `.copy()` results (lines 416, 427) or on columns of those
copies, so the input frame is untouched. -/
def standardize_afdc_inputAfter (df : Frame) : Frame := df

/-- The callers' tables after `standardize_eia` returns: both arguments are
`.copy()`-ed on entry (lines 663-664), so the inputs are untouched. -/
def standardize_eia_inputAfter (price sales : List EiaRow) :
    List EiaRow × List EiaRow := (price, sales)

/-- The date-column patterns of `standardize_recalls`, in the order they
appear in the `any(x in c for x in (...))` tuple. -/
def recallDatePats : List String :=
  ["REPORT RECEIVED DATE", "RECORD CREATION DATE", "DATE", "NHTSA ID"]

/-- Does a column name match any date pattern? -/
def isDateCol (c : String) : Bool :=
  recallDatePats.any fun pat => strContainsSub c pat

/-- The date-bearing column chosen by `standardize_recalls`: the FIRST column
in the table's header order whose name contains any of the four patterns
(`_first_nonnull` over a comprehension that walks `sdf.columns`). -/
def dateColChoice (cols : List String) : Option String :=
  cols.find? isDateCol

/-- `sdf["make"].str.upper().str.strip()` on one cell (non-strings → NaN). -/
def normMakeCell (cell : Cell) : Cell :=
  match cell with
  | .str s => .str (strTrim (strUpper s))
  | _ => .null

/-- Month derivation from the chosen date column for one row:
through `_parse_nhtsa_date` when the chosen column mentions NHTSA, else
`pd.to_datetime(...).dt.to_period("M").dt.to_timestamp()`. -/
def recallMonth (viaNhtsa : Bool) (cell : Cell) : Option Date :=
  if viaNhtsa then parse_nhtsa_date cell
  else (toDateCoerce cell).map fun d => ⟨d.year, d.month, 1⟩

/-- Group keys `(make, month)` sort with string makes ascending and null
makes last (pandas sorts NaN keys last). -/
def recallKeyLe (k1 k2 : Cell × Date) : Bool :=
  match k1, k2 with
  | (.str s1, d1), (.str s2, d2) =>
    strLtB s1 s2 || (s1 = s2 && dateLeB d1 d2)
  | (.str _, _), (_, _) => true
  | (_, _), (.str _, _) => false
  | (_, d1), (_, d2) => dateLeB d1 d2

/-- `x.rolling(12, min_periods=1).sum()` over a series: entry `i` sums the
last up-to-12 observations ending at `i`. -/
def rollingSum12 (xs : List ℕ) : List ℕ :=
  (List.range xs.length).map fun i => ∑ j in Finset.Ico (i + 1 - 12) (i + 1), xs.getD j 0

/-- The cumulative sum series of the same monthly counts. -/
def cumSum (xs : List ℕ) : List ℕ :=
  (List.range xs.length).map fun i => ∑ j in Finset.Ico 0 (i + 1), xs.getD j 0

/-- One output row of the monthly recalls table: make, month,
`recall_count_12m` (`recalls_per_10k` is the constant null placeholder and
is not carried). -/
structure RecallRow where
  make : Cell
  month : Date
  recall_count_12m : ℕ
deriving DecidableEq, Repr

/-- The three output shapes of `standardize_recalls`. -/
inductive RecallsOut where
  | empty
  | monthly (rows : List RecallRow)
  | yearly (rows : List ((Cell × Cell) × ℕ))
  | totals (rows : List (Cell × ℕ))
deriving DecidableEq, Repr

/-- Count, group and roll the `(make, month)` pairs: sorted distinct keys,
per-key filing counts, and the per-make trailing 12-month rolling sum in
month order (groups are contiguous in the sorted key list). -/
def recallsMonthlyRows (pairs : List (Cell × Date)) : List RecallRow :=
  let keys := List.insertionSort (fun k1 k2 => recallKeyLe k1 k2 = true)
    (firstDedup pairs)
  let makes := firstDedup (keys.map fun k => k.1)
  makes.flatMap fun mk =>
    let mkKeys := keys.filter fun k => k.1 = mk
    let counts := mkKeys.map fun k => pairs.count k
    (mkKeys.zip (rollingSum12 counts)).map fun p => ⟨p.1.1, p.1.2, p.2⟩

/-- `standardize_recalls` on the (already header-normalized) frame. -/
def standardize_recalls (df : Frame) (makes : List String) : RecallsOut :=
  if df.rows = [] then .empty
  else
    let cols := df.cols.map normHeader
    match cols.find? (· ∈ (["MAKE", "MANUFACTURER NAME", "MFR_NAME"] : List String)) with
    | none => .empty
    | some makeCol =>
      let cols := cols.map fun c => if c = makeCol then "make" else c
      let makeOf : List Cell → Cell := fun r => normMakeCell (getCell cols r "make")
      let rows :=
        if makes ≠ [] then
          df.rows.filter fun r => makeOf r ∈ (makes.map strUpper).map Cell.str
        else df.rows
      match dateColChoice cols with
      | some dc =>
        let viaNhtsa := strContainsSub dc "NHTSA"
        let pairs := rows.filterMap fun r =>
          (recallMonth viaNhtsa (getCell cols r dc)).map fun m => (makeOf r, m)
        .monthly (recallsMonthlyRows pairs)
      | none =>
        if "MODEL YEAR" ∈ cols then
          let keys := firstDedup (rows.map fun r =>
            (makeOf r, getCell cols r "MODEL YEAR"))
          .yearly (keys.map fun k =>
            (k, (rows.filter fun r =>
              (makeOf r, getCell cols r "MODEL YEAR") = k).length))
        else
          let keys := firstDedup (rows.map makeOf)
          .totals (keys.map fun k =>
            (k, (rows.filter fun r => makeOf r = k).length))

/-! ## Concrete example inputs used for witnesses and counterexamples -/

/-- The spec's two-row CA example: `(dc_fast, lvl2, lvl1) = (5, 10, 0)` and
`(3, 8, 0)` on the same snapshot date. -/
def exAfdcDf : Frame :=
  { cols := ["Fuel Type Code", "State", "EV DC Fast Count",
             "EV Level2 EVSE Num", "EV Level1 EVSE Num", "snapshot_date"],
    rows := [[.str "ELEC", .str "CA", .num 5, .num 10, .num 0,
              .date ⟨2021, 10, 7⟩],
             [.str "ELEC", .str "CA", .num 3, .num 8, .num 0,
              .date ⟨2021, 10, 7⟩]] }

/-- A small EIA sheet: two resolvable state rows, one unresolvable row, one
residential and one non-residential column. -/
def exSheet : EiaSheet :=
  { locations := [.str "California", .str "New York", .str "Nowhere"],
    colHeads := [("Residential", "2024-01"), ("Commercial", "2024-01")],
    cells := [[.num 19.5, .num 18], [.num 21.3, .num 19], [.num 1, .num 2]] }

/-- A recalls frame in which the filing-identifier column precedes the
received-date column in header order. -/
def rcDf : Frame :=
  { cols := ["NHTSA ID", "REPORT RECEIVED DATE", "MAKE"],
    rows := [[.str "20E003", .date ⟨2024, 5, 15⟩, .str "RIVIAN"]] }

/-- A tidy price table that is NOT sorted by state (AL precedes AK). -/
def badPrice : List EiaRow :=
  [⟨"AL", ⟨2024, 1, 1⟩, 1⟩, ⟨"AK", ⟨2024, 1, 1⟩, 1⟩]

/-- A recalls frame whose headers are not yet upper-cased/stripped. -/
def muDf : Frame :=
  { cols := ["Make", " NHTSA ID "], rows := [[.str "TESLA", .str "20E003"]] }

/-! ## Supporting lemmas -/

theorem mem_of_mem_firstDedupAux {α : Type} [DecidableEq α] {x : α} :
    ∀ {l seen : List α}, x ∈ firstDedupAux l seen → x ∈ l := by
  intro l
  induction l with
  | nil => intro seen h; simp [firstDedupAux] at h
  | cons k ks ih =>
    intro seen h
    unfold firstDedupAux at h
    by_cases hk : k ∈ seen
    · simp only [if_pos hk] at h
      exact List.mem_cons_of_mem _ (ih h)
    · simp only [if_neg hk] at h
      rcases List.mem_cons.mp h with h | h
      · exact h ▸ List.mem_cons_self _ _
      · exact List.mem_cons_of_mem _ (ih h)

theorem mem_of_mem_firstDedup {α : Type} [DecidableEq α] {x : α}
    {l : List α} (h : x ∈ firstDedup l) : x ∈ l :=
  mem_of_mem_firstDedupAux h

theorem find?_eq_some_of_first {α : Type} (p : α → Bool) :
    ∀ (pre : List α) (c : α) (post : List α), (∀ a ∈ pre, p a = false) →
    p c = true → (pre ++ c :: post).find? p = some c := by
  intro pre
  induction pre with
  | nil => intro c post _ hc; simp [List.find?, hc]
  | cons a pre ih =>
    intro c post hpre hc
    have ha : p a = false := hpre a (List.mem_cons_self _ _)
    simp only [List.cons_append, List.find?, ha]
    exact ih c post (fun b hb => hpre b (List.mem_cons_of_mem _ hb)) hc

theorem find?_some_split {α : Type} {p : α → Bool} :
    ∀ {l : List α} {c : α}, l.find? p = some c →
    ∃ pre post, l = pre ++ c :: post ∧ ∀ a ∈ pre, p a = false := by
  intro l
  induction l with
  | nil => intro c h; simp [List.find?] at h
  | cons a l ih =>
    intro c h
    by_cases ha : p a = true
    · simp only [List.find?, ha] at h
      cases h
      exact ⟨[], l, rfl, by simp⟩
    · have ha' : p a = false := Bool.eq_false_iff.mpr ha
      simp only [List.find?, ha'] at h
      obtain ⟨pre, post, hl, hpre⟩ := ih h
      exact ⟨a :: pre, post, by simp [hl], by
        intro b hb
        rcases List.mem_cons.mp hb with hb | hb
        · exact hb ▸ ha'
        · exact hpre b hb⟩

theorem digitsToNat_foldl_lt :
    ∀ (cs : List Char) (a : ℕ), cs.all isDigitCh = true →
      List.foldl (fun a c => a * 10 + (c.toNat - 48)) a cs <
        (a + 1) * 10 ^ cs.length := by
  intro cs
  induction cs with
  | nil =>
    intro a _
    simp only [List.foldl_nil, List.length_nil, pow_zero, mul_one]
    omega
  | cons c cs ih =>
    intro a h
    simp only [List.all_cons, Bool.and_eq_true] at h
    have hd : c.toNat - 48 ≤ 9 := by
      have hc := h.1
      simp only [isDigitCh, Bool.and_eq_true, decide_eq_true_eq] at hc
      omega
    have step := ih (a * 10 + (c.toNat - 48)) h.2
    calc List.foldl (fun a c => a * 10 + (c.toNat - 48))
          (a * 10 + (c.toNat - 48)) cs
        < (a * 10 + (c.toNat - 48) + 1) * 10 ^ cs.length := step
      _ ≤ ((a + 1) * 10) * 10 ^ cs.length := by
          apply Nat.mul_le_mul_right
          omega
      _ = (a + 1) * 10 ^ (c :: cs).length := by
          rw [List.length_cons, pow_succ]
          ring

theorem digitsToNat_lt (cs : List Char) (h : cs.all isDigitCh = true) :
    digitsToNat cs < 10 ^ cs.length := by
  simpa [digitsToNat] using digitsToNat_foldl_lt cs 0 h

theorem charsLt_trans :
    ∀ {a b c : List Char}, charsLt a b = true → charsLt b c = true →
    charsLt a c = true := by
  intro a
  induction a with
  | nil =>
    intro b c hab hbc
    cases b with
    | nil => simpa [charsLt] using hbc
    | cons y ys =>
      cases c with
      | nil => simp [charsLt] at hbc
      | cons z zs => simp [charsLt]
  | cons x xs ih =>
    intro b c hab hbc
    cases b with
    | nil => simp [charsLt] at hab
    | cons y ys =>
      cases c with
      | nil => simp [charsLt] at hbc
      | cons z zs =>
        simp only [charsLt, Bool.or_eq_true, Bool.and_eq_true,
          decide_eq_true_eq] at hab hbc ⊢
        rcases hab with h1 | ⟨h1, h1'⟩ <;> rcases hbc with h2 | ⟨h2, h2'⟩
        · exact Or.inl (Nat.lt_trans h1 h2)
        · exact Or.inl (h2 ▸ h1)
        · exact Or.inl (h1 ▸ h2)
        · exact Or.inr ⟨h1.trans h2, ih h1' h2'⟩

theorem charsLt_trichot :
    ∀ (a b : List Char), charsLt a b = true ∨ a = b ∨ charsLt b a = true := by
  intro a
  induction a with
  | nil =>
    intro b
    cases b with
    | nil => exact Or.inr (Or.inl rfl)
    | cons y ys => exact Or.inl (by simp [charsLt])
  | cons x xs ih =>
    intro b
    cases b with
    | nil => exact Or.inr (Or.inr (by simp [charsLt]))
    | cons y ys =>
      rcases Nat.lt_trichotomy x.toNat y.toNat with h | h | h
      · exact Or.inl (by simp [charsLt, h])
      · have hxy : x = y := Char.ext (UInt32.ext h)
        rcases ih ys with h2 | h2 | h2
        · exact Or.inl (by simp [charsLt, h, h2])
        · exact Or.inr (Or.inl (by rw [hxy, h2]))
        · exact Or.inr (Or.inr (by simp [charsLt, h.symm, h2]))
      · exact Or.inr (Or.inr (by simp [charsLt, h]))

theorem string_eq_of_data_eq {s1 s2 : String} (h : s1.data = s2.data) :
    s1 = s2 := by
  cases s1; cases s2; exact congrArg String.mk h

theorem date_eq_of_fields {d1 d2 : Date} (hy : d1.year = d2.year)
    (hm : d1.month = d2.month) (hd : d1.day = d2.day) : d1 = d2 := by
  cases d1; cases d2; simp_all

instance : IsTrans EiaRow eiaRowLe := by
  constructor
  intro a b c hab hbc
  simp only [eiaRowLe, Bool.or_eq_true, Bool.and_eq_true, decide_eq_true_eq,
    strLtB] at hab hbc ⊢
  rcases hab with h1 | ⟨h1, h1'⟩ <;> rcases hbc with h2 | ⟨h2, h2'⟩
  · exact Or.inl (charsLt_trans h1 h2)
  · exact Or.inl (h2 ▸ h1)
  · exact Or.inl (h1 ▸ h2)
  · refine Or.inr ⟨h1.trans h2, ?_⟩
    simp only [dateLeB, dateLtB, Bool.or_eq_true, decide_eq_true_eq] at h1' h2' ⊢
    rcases h1' with h1' | h1' <;> rcases h2' with h2' | h2'
    · exact Or.inl (by omega)
    · exact Or.inl (h2' ▸ h1')
    · exact Or.inl (h1' ▸ h2')
    · exact Or.inr (h1'.trans h2')

instance : IsTotal EiaRow eiaRowLe := by
  constructor
  intro a b
  simp only [eiaRowLe, Bool.or_eq_true, Bool.and_eq_true, decide_eq_true_eq,
    strLtB]
  rcases charsLt_trichot a.state.data b.state.data with h | h | h
  · exact Or.inl (Or.inl h)
  · have hs : a.state = b.state := string_eq_of_data_eq h
    simp only [dateLeB, dateLtB, Bool.or_eq_true, decide_eq_true_eq]
    rcases Nat.lt_trichotomy a.month.year b.month.year with h1 | h1 | h1
    · exact Or.inl (Or.inr ⟨hs, Or.inl (Or.inl h1)⟩)
    · rcases Nat.lt_trichotomy a.month.month b.month.month with h2 | h2 | h2
      · exact Or.inl (Or.inr ⟨hs, Or.inl (Or.inr ⟨h1, Or.inl h2⟩)⟩)
      · rcases Nat.lt_trichotomy a.month.day b.month.day with h3 | h3 | h3
        · exact Or.inl (Or.inr ⟨hs, Or.inl (Or.inr ⟨h1, Or.inr ⟨h2, h3⟩⟩)⟩)
        · exact Or.inl (Or.inr ⟨hs, Or.inr (date_eq_of_fields h1 h2 h3)⟩)
        · exact Or.inr (Or.inr ⟨hs.symm, Or.inl (Or.inr ⟨h1.symm, Or.inr ⟨h2.symm, h3⟩⟩)⟩)
      · exact Or.inr (Or.inr ⟨hs.symm, Or.inl (Or.inr ⟨h1.symm, Or.inl h2⟩)⟩)
    · exact Or.inr (Or.inr ⟨hs.symm, Or.inl (Or.inl h1)⟩)
  · exact Or.inr (Or.inl h)

theorem afdcKeyed_state_mem {df : Frame} {sc : String}
    {k : String × Option Date × ℤ × ℤ} (h : k ∈ afdcKeyed df sc) :
    k.1 ∈ STATE_ABBR := by
  simp only [afdcKeyed, List.mem_filterMap] at h
  obtain ⟨r, _, hr⟩ := h
  split at hr
  · split at hr
    · cases hr
      simpa using by assumption
    · exact absurd hr (by simp)
  · exact absurd hr (by simp)

/-- Every row of `afdcGroups` is a `mkGrp` for a state in the fixed
enumeration. -/
theorem afdcGroups_shape {df : Frame} {statePop : List (String × ℚ)}
    {g : AfdcGrp} (hg : g ∈ afdcGroups df statePop) :
    ∃ s d ports dc pop, g = mkGrp s d ports dc pop ∧ s ∈ STATE_ABBR := by
  simp only [afdcGroups, List.mem_flatMap] at hg
  obtain ⟨key, hkey, hgm⟩ := hg
  have hks : key.1 ∈ STATE_ABBR := by
    rw [List.mem_insertionSort] at hkey
    obtain ⟨k, hk, hke⟩ := List.mem_map.mp (mem_of_mem_firstDedup hkey)
    exact hke ▸ afdcKeyed_state_mem hk
  split at hgm
  · rcases List.mem_singleton.mp hgm with rfl
    exact ⟨key.1, key.2, _, _, none, rfl, hks⟩
  · obtain ⟨p, _, hpe⟩ := List.mem_map.mp hgm
    exact ⟨key.1, key.2, _, _, some p.2, hpe.symm, hks⟩

/-- Every row of a successful `afdcAggregate` run is a `mkGrp` for a state in
the fixed enumeration. -/
theorem afdcAggregate_ok_shape {df : Frame} {statePop : List (String × ℚ)}
    {gs : List AfdcGrp} (h : afdcAggregate df statePop = .ok gs) :
    ∀ g ∈ gs, ∃ s d ports dc pop,
      g = mkGrp s d ports dc pop ∧ s ∈ STATE_ABBR := by
  intro g hg
  unfold afdcAggregate at h
  split at h
  · injection h with h; subst h; simp at hg
  · split at h
    · exact absurd h (by simp)
    · split at h
      · exact absurd h (by simp)
      · injection h with h; subst h
        exact afdcGroups_shape hg

theorem mapStateName_mem {cell : Cell} {st : String}
    (h : mapStateName cell = some st) : st ∈ STATE_ABBR := by
  cases cell with
  | str s =>
    simp only [mapStateName] at h
    obtain ⟨p, hp, hpe⟩ := Option.map_eq_some'.mp h
    have hm : p ∈ STATE_NAME_TO_ABBR := List.mem_of_find?_eq_some hp
    have hall : ∀ q ∈ STATE_NAME_TO_ABBR, q.2 ∈ STATE_ABBR := by decide
    exact hpe ▸ hall p hm
  | num q => simp [mapStateName] at h
  | date d => simp [mapStateName] at h
  | null => simp [mapStateName] at h

theorem eiaTidy_state_mem {sheet : EiaSheet} {r : EiaRow}
    (h : r ∈ eiaTidy sheet) : r.state ∈ STATE_ABBR := by
  unfold eiaTidy at h
  split at h
  · simp at h
  · simp only [List.mem_flatMap] at h
    obtain ⟨⟨loc, rowCells⟩, _, hr⟩ := h
    split at hr
    · simp at hr
    · rename_i st hst
      simp only [List.mem_filterMap] at hr
      obtain ⟨i, _, hi⟩ := hr
      split at hi
      · exact absurd hi (by simp)
      · split at hi
        · split at hi
          · obtain ⟨q, _, hqe⟩ := Option.map_eq_some'.mp hi
            have : r.state = st := by rw [← hqe]
            exact this ▸ mapStateName_mem hst
          · exact absurd hi (by simp)
        · exact absurd hi (by simp)

theorem rollingSum12_short (xs : List ℕ) (h : xs.length < 12) :
    rollingSum12 xs = cumSum xs := by
  unfold rollingSum12 cumSum
  apply List.map_congr_left
  intro i hi
  have hlt : i < xs.length := List.mem_range.mp hi
  have h0 : i + 1 - 12 = 0 := by omega
  rw [h0]

theorem getD_mono_of_strict {xs : List ℕ}
    (hinc : ∀ j, j + 1 < xs.length → xs.getD j 0 < xs.getD (j + 1) 0) :
    ∀ a b, a ≤ b → b < xs.length → xs.getD a 0 ≤ xs.getD b 0 := by
  intro a b hab hb
  induction b with
  | zero =>
    have : a = 0 := Nat.le_zero.mp hab
    simp [this]
  | succ n ihn =>
    rcases Nat.lt_or_ge a (n + 1) with h | h
    · have h1 : xs.getD a 0 ≤ xs.getD n 0 :=
        ihn (by omega) (by omega)
      exact h1.trans (Nat.le_of_lt (hinc n hb))
    · have : a = n + 1 := by omega
      simp [this]

theorem rollingSum12_getD (xs : List ℕ) (i : ℕ) (hi : i < xs.length) :
    (rollingSum12 xs).getD i 0 =
      ∑ j in Finset.Ico (i + 1 - 12) (i + 1), xs.getD j 0 := by
  unfold rollingSum12
  rw [List.getD_eq_getElem _ _ (by simpa using hi)]
  simp

theorem rollingSum12_mono (xs : List ℕ)
    (hinc : ∀ j, j + 1 < xs.length → xs.getD j 0 < xs.getD (j + 1) 0)
    (i : ℕ) (hi : i + 1 < xs.length) :
    (rollingSum12 xs).getD i 0 ≤ (rollingSum12 xs).getD (i + 1) 0 := by
  rw [rollingSum12_getD xs i (by omega), rollingSum12_getD xs (i + 1) hi]
  by_cases h12 : i + 1 < 12
  · have e1 : i + 1 - 12 = 0 := by omega
    have e2 : i + 1 + 1 - 12 = 0 := by omega
    rw [e1, e2]
    conv_rhs => rw [Finset.sum_Ico_succ_top (Nat.zero_le _)]
    exact Nat.le_add_right _ _
  · have e1 : i + 1 - 12 = i - 11 := by omega
    have e2 : i + 1 + 1 - 12 = i - 10 := by omega
    rw [e1, e2, Finset.sum_Ico_succ_top (by omega : i - 10 ≤ i + 1)]
    rw [Finset.sum_eq_sum_Ico_succ_bot (by omega : i - 11 < i + 1)]
    have e3 : i - 11 + 1 = i - 10 := by omega
    rw [e3]
    have hle : xs.getD (i - 11) 0 ≤ xs.getD (i + 1) 0 :=
      getD_mono_of_strict hinc (i - 11) (i + 1) (by omega) hi
    omega

/-! ## Claim theorems -/

/-- C1: every row of every output table of the standardizers (AFDC
ports-per-100k, AFDC dcfast-share, EIA price, EIA sales) carries a state
code from the fixed 52-element enumeration; rows with a state outside the
set are dropped before aggregation and never appear in any output (the
EIA sort step only permutes the ingested rows). -/
theorem C1_state_code_invariant :
    (∀ (df : Frame) (statePop : List (String × ℚ))
        (ports : List PortsRow) (shares : List ShareRow),
        standardize_afdc df statePop = .ok (ports, shares) →
        (∀ r ∈ ports, r.state ∈ STATE_ABBR) ∧
        (∀ r ∈ shares, r.state ∈ STATE_ABBR)) ∧
    (∀ (sheet : EiaSheet) (r : EiaRow),
        r ∈ ingest_eia_price sheet → r.state ∈ STATE_ABBR) ∧
    (∀ (sheet : EiaSheet) (r : EiaRow),
        r ∈ ingest_eia_sales sheet → r.state ∈ STATE_ABBR) ∧
    (∀ (price sales : List EiaRow),
        (∀ r ∈ (standardize_eia price sales).1, r ∈ price) ∧
        (∀ r ∈ (standardize_eia price sales).2, r ∈ sales)) := by
  refine ⟨?_, ?_, ?_, ?_⟩
  · intro df statePop ports shares h
    unfold standardize_afdc at h
    cases hagg : afdcAggregate df statePop with
    | error e => rw [hagg] at h; simp [Except.map] at h
    | ok gs =>
      rw [hagg] at h
      simp only [Except.map, Except.ok.injEq, Prod.mk.injEq] at h
      obtain ⟨hp, hs⟩ := h
      constructor
      · intro r hr
        rw [← hp] at hr
        obtain ⟨g, hg, hge⟩ := List.mem_map.mp hr
        obtain ⟨s, d, po, dc, pop, rfl, hmem⟩ := afdcAggregate_ok_shape hagg g hg
        rw [← hge]
        simpa [mkGrp] using hmem
      · intro r hr
        rw [← hs] at hr
        obtain ⟨g, hg, hge⟩ := List.mem_map.mp hr
        obtain ⟨s, d, po, dc, pop, rfl, hmem⟩ := afdcAggregate_ok_shape hagg g hg
        rw [← hge]
        simpa [mkGrp] using hmem
  · intro sheet r hr
    exact eiaTidy_state_mem hr
  · intro sheet r hr
    exact eiaTidy_state_mem hr
  · intro price sales
    constructor
    · intro r hr
      exact (List.mem_insertionSort _).mp hr
    · intro r hr
      exact (List.mem_insertionSort _).mp hr

/-- C1 witness: a concrete AFDC run and a concrete EIA sheet whose output
rows the theorem places in the state enumeration. -/
theorem C1_state_code_invariant_witness :
    ("CA" : String) ∈ STATE_ABBR ∧ ("NY" : String) ∈ STATE_ABBR :=
  ⟨((C1_state_code_invariant.1 exAfdcDf DEFAULT_STATE_POP
      [⟨"CA", some ⟨2021, 10, 7⟩, some ((26 : ℚ) / 38965193 * 100000)⟩]
      [⟨"CA", some ⟨2021, 10, 7⟩, some ((8 : ℚ) / 26)⟩]
      (by decide)).1
      ⟨"CA", some ⟨2021, 10, 7⟩, some ((26 : ℚ) / 38965193 * 100000)⟩
      (by decide) : _),
   (C1_state_code_invariant.2.1 exSheet ⟨"NY", ⟨2024, 1, 1⟩, 21.3⟩
      (by decide) : _)⟩

/-- C2: for every group of a successful AFDC aggregation,
`ports_per_100k = ports / population * 100000` (null when the population is
missing), and `dcfast_share = dc_fast_ports / ports` when `ports > 0` and
null (not zero, with no error) when `ports = 0`; on the spec's two CA rows
`(5, 10, 0)` and `(3, 8, 0)` the aggregate has ports 26, DC-fast 8 and
share `8 / 26`. -/
theorem C2_afdc_rate_formulas :
    (∀ (df : Frame) (statePop : List (String × ℚ)) (gs : List AfdcGrp),
        afdcAggregate df statePop = .ok gs → ∀ g ∈ gs,
        g.ppk = g.population.map (fun p => (g.ports : ℚ) / p * 100000) ∧
        (0 < g.ports → g.share = some ((g.dcFast : ℚ) / (g.ports : ℚ))) ∧
        (g.ports = 0 → g.share = none)) ∧
    afdcAggregate exAfdcDf DEFAULT_STATE_POP =
      .ok [{ state := "CA", date := some ⟨2021, 10, 7⟩, ports := 26,
             dcFast := 8, population := some 38965193,
             ppk := some ((26 : ℚ) / 38965193 * 100000),
             share := some ((8 : ℚ) / 26) }] := by
  constructor
  · intro df statePop gs h g hg
    obtain ⟨s, d, po, dc, pop, rfl, _⟩ := afdcAggregate_ok_shape h g hg
    refine ⟨?_, ?_, ?_⟩
    · cases pop <;> simp [mkGrp]
    · intro hp
      simp only [mkGrp] at hp ⊢
      rw [if_pos hp]
    · intro hp
      simp only [mkGrp] at hp ⊢
      rw [hp]
      simp
  · decide

/-- C2 witness: the general formula conjunct applied to the concrete
aggregate of the spec's example. -/
theorem C2_afdc_rate_formulas_witness :
    ({ state := "CA", date := some ⟨2021, 10, 7⟩, ports := 26, dcFast := 8,
       population := some 38965193,
       ppk := some ((26 : ℚ) / 38965193 * 100000),
       share := some ((8 : ℚ) / 26) } : AfdcGrp).ppk =
      (some (38965193 : ℚ)).map (fun p => ((26 : ℤ) : ℚ) / p * 100000) :=
  (C2_afdc_rate_formulas.1 exAfdcDf DEFAULT_STATE_POP
    [{ state := "CA", date := some ⟨2021, 10, 7⟩, ports := 26, dcFast := 8,
       population := some 38965193,
       ppk := some ((26 : ℚ) / 38965193 * 100000),
       share := some ((8 : ℚ) / 26) }]
    (by decide)
    { state := "CA", date := some ⟨2021, 10, 7⟩, ports := 26, dcFast := 8,
      population := some 38965193,
      ppk := some ((26 : ℚ) / 38965193 * 100000),
      share := some ((8 : ℚ) / 26) }
    (by decide)).1

/-- C3 counterexample: with headers `["NHTSA ID", "REPORT RECEIVED DATE",
"make"]` the received-date column is present, yet the resolver picks the
filing-identifier column (first in TABLE order, not candidate-priority
order), and the full standardizer derives the month 2020-01 from the NHTSA
ID instead of 2024-05 from the received date. -/
theorem C3_date_priority_counterexample :
    ("REPORT RECEIVED DATE" ∈ (["NHTSA ID", "REPORT RECEIVED DATE", "make"] : List String)) ∧
    dateColChoice ["NHTSA ID", "REPORT RECEIVED DATE", "make"] = some "NHTSA ID" ∧
    ("NHTSA ID" : String) ≠ "REPORT RECEIVED DATE" ∧
    standardize_recalls rcDf [] =
      .monthly [⟨.str "RIVIAN", ⟨2020, 1, 1⟩, 1⟩] := by decide

/-- C3 amended: the date-bearing column is the FIRST header in the table's
column order whose name contains any of the four patterns (received date,
record creation date, generic date, NHTSA ID); the received-date column is
chosen exactly when it precedes every other matching header. -/
theorem C3_date_priority_amended :
    ∀ (pre : List String) (c : String) (post : List String),
      (∀ c' ∈ pre, isDateCol c' = false) → isDateCol c = true →
      dateColChoice (pre ++ c :: post) = some c := by
  intro pre c post hpre hc
  exact find?_eq_some_of_first isDateCol pre c post hpre hc

/-- C3 witness: with the received-date header first among matching headers,
it is the one chosen. -/
theorem C3_date_priority_amended_witness :
    dateColChoice ["make", "REPORT RECEIVED DATE", "NHTSA ID"] =
      some "REPORT RECEIVED DATE" :=
  C3_date_priority_amended ["make"] "REPORT RECEIVED DATE" ["NHTSA ID"]
    (by decide) (by decide)

/-- C4 counterexample: a candidate differing from the actual header only in
letter case is NOT matched — the resolver's membership test is exact, not
case- or whitespace-tolerant. -/
theorem C4_resolver_counterexample :
    strLower "EV DC Fast Count" = strLower "EV DC FAST COUNT" ∧
    find_column ⟨["EV DC FAST COUNT"], [[.num 5]]⟩ ["EV DC Fast Count"] =
      none := by decide

/-- C4 amended: `_find_column` returns the first candidate that appears
EXACTLY among the table's headers (tolerance of header drift comes from
listing several spellings as candidates, not from normalizing), and `none`
exactly when no candidate is exactly present. -/
theorem C4_resolver_amended :
    ∀ (df : Frame) (cands : List String),
      (find_column df cands = none ↔ ∀ c ∈ cands, c ∉ df.cols) ∧
      (∀ col, findColumnName df.cols cands = some col →
        col ∈ df.cols ∧ ∃ pre post, cands = pre ++ col :: post ∧
          ∀ c ∈ pre, c ∉ df.cols) := by
  intro df cands
  constructor
  · unfold find_column findColumnName
    constructor
    · intro h
      rcases hf : cands.find? (· ∈ df.cols) with _ | c
      · intro c hc
        have := List.find?_eq_none.mp hf c hc
        simpa using this
      · rw [hf] at h; simp at h
    · intro h
      have hf : cands.find? (· ∈ df.cols) = none := by
        rw [List.find?_eq_none]
        intro c hc
        simpa using h c hc
      rw [hf]
      rfl
  · intro col h
    have hmem : col ∈ df.cols := by
      have := List.find?_some h
      simpa using this
    obtain ⟨pre, post, hsplit, hpre⟩ := find?_some_split h
    refine ⟨hmem, pre, post, hsplit, ?_⟩
    intro c hc
    have := hpre c hc
    simpa using this

/-- C4 witness: when no candidate is exactly present the resolver returns
none, even though a case-variant header exists. -/
theorem C4_resolver_amended_witness :
    find_column ⟨["STATE"], []⟩ ["State", "state"] = none :=
  (C4_resolver_amended ⟨["STATE"], []⟩ ["State", "state"]).1.mpr (by decide)

/-- C5: with fewer than 12 observations the trailing 12-month rolling sum
(minimum window 1) equals the plain cumulative sum at every position, and
on a strictly increasing monthly series the rolling sum is non-decreasing
across consecutive months. -/
theorem C5_rolling_sum :
    (∀ xs : List ℕ, xs.length < 12 → rollingSum12 xs = cumSum xs) ∧
    (∀ xs : List ℕ,
      (∀ j, j + 1 < xs.length → xs.getD j 0 < xs.getD (j + 1) 0) →
      ∀ i, i + 1 < xs.length →
        (rollingSum12 xs).getD i 0 ≤ (rollingSum12 xs).getD (i + 1) 0) :=
  ⟨rollingSum12_short, rollingSum12_mono⟩

/-- C5 witness: a 2-month series matches its cumulative sum, and a strictly
increasing 3-month series has a non-decreasing rolling sum. -/
theorem C5_rolling_sum_witness :
    rollingSum12 [1, 2] = cumSum [1, 2] ∧
    (rollingSum12 [1, 2, 3]).getD 1 0 ≤ (rollingSum12 [1, 2, 3]).getD 2 0 :=
  ⟨C5_rolling_sum.1 [1, 2] (by decide),
   C5_rolling_sum.2 [1, 2, 3]
    (by
      intro j hj
      have hj3 : j + 1 < 3 := by simpa using hj
      have : j = 0 ∨ j = 1 := by omega
      rcases this with rfl | rfl <;> decide)
    1 (by decide)⟩

/-- C6: the month parser agrees on `"2024-01"`, `"Jan-2024"` and
`"2024 M01"`, all denoting 2024-01-01; it returns `none` on total parse
failure and, being a total function into `Option`, never raises on any
string input. -/
theorem C6_month_parse_behavior :
    safe_month_parse "2024-01" = some ⟨2024, 1, 1⟩ ∧
    safe_month_parse "Jan-2024" = some ⟨2024, 1, 1⟩ ∧
    safe_month_parse "2024 M01" = some ⟨2024, 1, 1⟩ ∧
    safe_month_parse "not a month" = none ∧
    (∀ s : String, safe_month_parse s = none ∨
      ∃ d, safe_month_parse s = some d) := by
  refine ⟨by decide, by decide, by decide, by decide, ?_⟩
  intro s
  cases h : safe_month_parse s with
  | none => exact Or.inl rfl
  | some d => exact Or.inr ⟨d, rfl⟩

/-- C7 counterexample: `"2024_report (Dec 31 2023).csv"` contains exactly
one bare 4-digit year token (2024), yet the function returns the
parenthesized date 2023-12-31, whose year differs from the embedded year
token. -/
theorem C7_year_counterexample :
    ((nameTokens "2024_report (Dec 31 2023).csv").filter isYearTok).map
        digitsToNat = [2024] ∧
    infer_snapshot_date_from_name "2024_report (Dec 31 2023).csv" =
      .ok (some ⟨2023, 12, 31⟩) ∧
    (2023 : ℕ) ≠ 2024 := by decide

/-- C7 amended: for every filename whose first bare 4-digit year token is a
VALID year (nonzero), the function returns some date without raising, and
that date is the fixed placeholder October 7 of the token's year exactly
when neither the parenthesized content nor any 3-token window parses as a
date (when an earlier tier parses, its date and year win); for the invalid
token `0000`, the unguarded `Timestamp` constructor makes the function
raise once the earlier tiers fail. -/
theorem C7_year_amended :
    ∀ (name : String) (t : List Char),
      (nameTokens name).find? isYearTok = some t →
      (1 ≤ digitsToNat t →
        (∃ d, infer_snapshot_date_from_name name = .ok (some d)) ∧
        (parenDate name = none → windowDate name = none →
          infer_snapshot_date_from_name name =
            .ok (some ⟨digitsToNat t, 10, 7⟩))) ∧
      (digitsToNat t = 0 → parenDate name = none → windowDate name = none →
        infer_snapshot_date_from_name name =
          .error "ValueError: date value out of range") := by
  intro name t ht
  have htok : isYearTok t = true := List.find?_some ht
  simp only [isYearTok, isDigitTok, Bool.and_eq_true, decide_eq_true_eq] at htok
  have hbound : digitsToNat t ≤ 9999 := by
    have hlt := digitsToNat_lt t htok.1.2
    rw [htok.2] at hlt
    omega
  constructor
  · intro h1
    have hts : pdTimestampYMD (digitsToNat t) 10 7 =
        .ok ⟨digitsToNat t, 10, 7⟩ := by
      unfold pdTimestampYMD
      rw [if_pos]
      exact ⟨h1, hbound, by omega, by omega, by omega, by omega⟩
    unfold infer_snapshot_date_from_name
    cases hp : parenDate name with
    | some d =>
      exact ⟨⟨d, rfl⟩, fun hpn => Option.noConfusion hpn⟩
    | none =>
      cases hw : windowDate name with
      | some d =>
        exact ⟨⟨d, rfl⟩, fun _ hwn => Option.noConfusion hwn⟩
      | none =>
        have hy : yearTokDate name = some (.ok ⟨digitsToNat t, 10, 7⟩) := by
          unfold yearTokDate
          rw [ht, Option.map_some', hts]
        rw [hy]
        exact ⟨⟨_, rfl⟩, fun _ _ => rfl⟩
  · intro h0 hpn hwn
    have hts : pdTimestampYMD (digitsToNat t) 10 7 =
        .error "ValueError: date value out of range" := by
      unfold pdTimestampYMD
      rw [if_neg]
      omega
    have hy : yearTokDate name =
        some (.error "ValueError: date value out of range") := by
      unfold yearTokDate
      rw [ht, Option.map_some', hts]
    unfold infer_snapshot_date_from_name
    rw [hpn, hwn, hy]

/-- C7 witness: a filename where only the year tier fires and the token is
a valid year, and one where the token is `0000` and the function raises. -/
theorem C7_year_amended_witness :
    infer_snapshot_date_from_name "stations_2024_v2.csv" =
      .ok (some ⟨2024, 10, 7⟩) ∧
    infer_snapshot_date_from_name "area_0000_map.csv" =
      .error "ValueError: date value out of range" :=
  ⟨((C7_year_amended "stations_2024_v2.csv" ['2', '0', '2', '4']
      (by decide)).1 (by decide)).2 (by decide) (by decide),
   (C7_year_amended "area_0000_map.csv" ['0', '0', '0', '0']
      (by decide)).2 (by decide) (by decide) (by decide)⟩

/-- C8 counterexample: with a non-empty price table but an EMPTY sales
table, `run_all` skips `standardize_eia` and writes the price table in raw
ingest order, which need not be sorted by (state, month): AL before AK
survives to the output. -/
theorem C8_price_sort_counterexample :
    badPrice ≠ [] ∧
    run_all_price_written badPrice [] = badPrice ∧
    ¬ List.Chain' eiaRowLe (run_all_price_written badPrice []) := by
  refine ⟨by decide, by decide, ?_⟩
  rw [show run_all_price_written badPrice [] = badPrice from by decide]
  rw [show badPrice = [⟨"AL", ⟨2024, 1, 1⟩, 1⟩, ⟨"AK", ⟨2024, 1, 1⟩, 1⟩]
    from by decide]
  rw [List.chain'_cons]
  rintro ⟨h1, -⟩
  exact (by decide :
    ¬ eiaRowLe ⟨"AL", ⟨2024, 1, 1⟩, 1⟩ ⟨"AK", ⟨2024, 1, 1⟩, 1⟩) h1

/-- C8 amended: whenever BOTH the price and the sales tables are non-empty,
the written price table is sorted: consecutive rows are non-decreasing in
(state, month) lexicographic order. -/
theorem C8_price_sort_amended :
    ∀ (price sales : List EiaRow), price ≠ [] → sales ≠ [] →
      List.Chain' eiaRowLe (run_all_price_written price sales) := by
  intro price sales hp hs
  unfold run_all_price_written
  rw [if_pos ⟨hp, hs⟩]
  exact List.chain'_iff_pairwise.mpr
    (List.sorted_insertionSort eiaRowLe price)

/-- C8 witness: with both tables non-empty the unsorted example comes out
sorted. -/
theorem C8_price_sort_amended_witness :
    List.Chain' eiaRowLe (run_all_price_written badPrice badPrice) :=
  C8_price_sort_amended badPrice badPrice (by decide) (by decide)

/-- C9 counterexample: `standardize_recalls` rewrites the CALLER's column
headers in place (uppercased and stripped) before copying, so the input
frame observed after the call differs from the one passed in. -/
theorem C9_immutability_counterexample :
    standardize_recalls_inputAfter muDf ≠ muDf ∧
    standardize_recalls_inputAfter muDf =
      { cols := ["MAKE", "NHTSA ID"], rows := muDf.rows } := by decide

/-- C9 amended: `standardize_afdc` and `standardize_eia` leave their inputs
unchanged; `standardize_recalls` preserves the row data and the empty
input, but on any non-empty input it replaces the caller's headers with
their uppercased, stripped forms. -/
theorem C9_immutability_amended :
    (∀ df : Frame, standardize_afdc_inputAfter df = df) ∧
    (∀ price sales : List EiaRow,
      standardize_eia_inputAfter price sales = (price, sales)) ∧
    (∀ df : Frame,
      (standardize_recalls_inputAfter df).rows = df.rows ∧
      (df.rows = [] → standardize_recalls_inputAfter df = df) ∧
      (df.rows ≠ [] →
        (standardize_recalls_inputAfter df).cols = df.cols.map normHeader)) := by
  refine ⟨fun df => rfl, fun p s => rfl, fun df => ⟨?_, ?_, ?_⟩⟩
  · unfold standardize_recalls_inputAfter
    split <;> rfl
  · intro h
    unfold standardize_recalls_inputAfter
    rw [if_pos h]
  · intro h
    unfold standardize_recalls_inputAfter
    rw [if_neg h]

/-- C9 witness: the header rewrite observed on the concrete frame. -/
theorem C9_immutability_amended_witness :
    (standardize_recalls_inputAfter muDf).cols = muDf.cols.map normHeader :=
  (C9_immutability_amended.2.2 muDf).2.2 (by decide)

/-- C10: an empty input yields two empty output tables without raising,
and any non-empty input with no state column under any accepted spelling
makes `standardize_afdc` raise instead of returning. -/
theorem C10_afdc_error_policy :
    (∀ (df : Frame) (statePop : List (String × ℚ)), df.rows = [] →
      standardize_afdc df statePop = .ok ([], [])) ∧
    (∀ (df : Frame) (statePop : List (String × ℚ)), df.rows ≠ [] →
      (∀ c ∈ df.cols, c ∉ (["State", "STATE", "state"] : List String)) →
      standardize_afdc df statePop =
        .error "AFDC: could not find 'State' column") := by
  constructor
  · intro df statePop h
    unfold standardize_afdc afdcAggregate
    rw [if_pos h]
    rfl
  · intro df statePop hrows hcols
    have hsc : afdcStateCol df = "State" := by
      unfold afdcStateCol
      have hf : df.cols.filter (· ∈ (["State", "STATE", "state"] : List String)) = [] := by
        rw [List.filter_eq_nil_iff]
        intro c hc
        simpa using hcols c hc
      rw [hf]
      rfl
    have hns : "State" ∉ df.cols := fun hmem =>
      hcols "State" hmem (by decide)
    unfold standardize_afdc afdcAggregate
    rw [if_neg hrows, hsc, if_pos hns]
    rfl

/-- C10 witness: a concrete empty frame and a concrete stateless frame. -/
theorem C10_afdc_error_policy_witness :
    standardize_afdc ⟨["A"], []⟩ [] = .ok ([], []) ∧
    standardize_afdc ⟨["foo"], [[.null]]⟩ [] =
      .error "AFDC: could not find 'State' column" :=
  ⟨C10_afdc_error_policy.1 ⟨["A"], []⟩ [] (by decide),
   C10_afdc_error_policy.2 ⟨["foo"], [[.null]]⟩ [] (by decide) (by decide)⟩

end EvIngest
